import Mathlib

/-!
# Verification of the moodle-ts client and OpenAPI generator

Shallow embedding of the repository source:
* `src/src/client/serialize.ts` — the parameter serializer;
* `src/src/client/index.ts` — the HTTP call executor `call`;
* `src/src/client/MoodleClient.ts` — the client constructor;
* `src/src/client/errors.ts` — the error taxonomy and `isMoodleErrorResponse`;
* `scripts/generate-openapi.mjs` — the schema-to-OpenAPI transformer and
  the JSON-to-YAML emitter.

JavaScript runtime values are modelled by the inductive `Json` (ordered
field lists model object key order); `undefined` is modelled by `Option`
at positions where the code distinguishes it.
-/

namespace MoodleTs

/-- A JavaScript/JSON runtime value. Object fields keep insertion order,
mirroring JavaScript object key ordering for string keys. -/
inductive Json where
  | null : Json
  | bool (b : Bool) : Json
  | num (n : Int) : Json
  | str (s : String) : Json
  | arr (items : List Json) : Json
  | obj (fields : List (String × Json)) : Json
deriving Repr

/-- `SerializableValue` from `src/src/client/serialize.ts`: string, number,
boolean, null/undefined (merged: the serializer treats both identically),
array, or object. -/
inductive SerializableValue where
  | str (s : String) : SerializableValue
  | num (n : Int) : SerializableValue
  | bool (b : Bool) : SerializableValue
  | null : SerializableValue
  | arr (items : List SerializableValue) : SerializableValue
  | obj (entries : List (String × SerializableValue)) : SerializableValue
deriving Repr

/-- `SerializableParams = Record<string, SerializableValue>`: an ordered
mapping, modelled as an association list in insertion order. -/
abbrev SerializableParams := List (String × SerializableValue)

mutual

/-- `appendParam` from `serializeParams` (serialize.ts lines 30-59):
emits the flat key/value entries for one value under a given key.
`URLSearchParams.append` order is modelled by list concatenation order. -/
def appendParam (key : String) : SerializableValue → List (String × String)
  | .null => []
  | .bool b => [(key, if b then "1" else "0")]
  | .num n => [(key, toString n)]
  | .str s => [(key, s)]
  | .arr items => appendArrItems key 0 items
  | .obj entries => appendObjEntries key entries

/-- The `value.forEach((item, index) => ...)` loop of the array branch
(serialize.ts lines 42-53): an item that is a non-null object (including a
nested array) is decomposed via `Object.entries`; any other item is passed
to `appendParam` under the indexed key. -/
def appendArrItems (key : String) (i : Nat) : List SerializableValue → List (String × String)
  | [] => []
  | item :: rest =>
    (match item with
     | .obj es => appendObjEntries (key ++ "[" ++ toString i ++ "]") es
     | .arr xs => appendArrIndexEntries (key ++ "[" ++ toString i ++ "]") 0 xs
     | other => appendParam (key ++ "[" ++ toString i ++ "]") other)
    ++ appendArrItems key (i + 1) rest

/-- The `Object.entries(value).forEach(([subKey, subValue]) => ...)` loop of
the object branch (serialize.ts lines 54-58): each entry recurses under
the bracketed key. -/
def appendObjEntries (key : String) : List (String × SerializableValue) → List (String × String)
  | [] => []
  | (subKey, subValue) :: rest =>
    appendParam (key ++ "[" ++ subKey ++ "]") subValue ++ appendObjEntries key rest

/-- `Object.entries` applied to an array value inside the array branch:
entries are index-keyed (`"0"`, `"1"`, ...), each passed to `appendParam`
under the bracketed index key. -/
def appendArrIndexEntries (key : String) (j : Nat) : List SerializableValue → List (String × String)
  | [] => []
  | x :: rest =>
    appendParam (key ++ "[" ++ toString j ++ "]") x ++ appendArrIndexEntries key (j + 1) rest

end

/-- `serializeParams` (serialize.ts lines 24-67). The `prefix` default
argument of the source is the explicit parameter `pfx` here (the source
name collides with a Lean keyword); the exported call sites all use the
default `""`. A nonempty `pfx` (truthy in JavaScript) brackets each key. -/
def serializeParams (params : SerializableParams) (pfx : String) : List (String × String) :=
  params.flatMap fun e =>
    appendParam (if pfx = "" then e.1 else pfx ++ "[" ++ e.1 ++ "]") e.2

mutual

/-- Number of terminal scalars (string, number, boolean) reachable in a
`SerializableValue` tree; `null` branches contribute nothing. -/
def scalarCount : SerializableValue → Nat
  | .str _ => 1
  | .num _ => 1
  | .bool _ => 1
  | .null => 0
  | .arr items => scalarCountList items
  | .obj entries => scalarCountEntries entries

/-- Total scalar count of a list of values. -/
def scalarCountList : List SerializableValue → Nat
  | [] => 0
  | x :: rest => scalarCount x + scalarCountList rest

/-- Total scalar count of the values of an entry list. -/
def scalarCountEntries : List (String × SerializableValue) → Nat
  | [] => 0
  | e :: rest => scalarCount e.2 + scalarCountEntries rest

end

/-! ## Error taxonomy (`src/src/client/errors.ts`) and the call executor
(`src/src/client/index.ts`) -/

/-- The error values the client can throw. `jsError` models a plain
JavaScript `Error` (as thrown by the `MoodleClient` constructor); the
remaining constructors model the classes of errors.ts. `apiError` carries
the raw parsed JSON values the code passes (the TypeScript annotations are
not enforced at runtime); `networkError.cause` records the message of the
wrapped cause error when one is passed. -/
inductive ThrownError where
  | jsError (message : String) : ThrownError
  | moodleError (message : String) (code : Option String) (debugInfo : Option String) : ThrownError
  | authError (message : String) : ThrownError
  | apiError (message : Option Json) (errorCode : Json)
      (exception : Option Json) (debugInfo : Option Json) : ThrownError
  | networkError (message : String) (cause : Option String) : ThrownError
  | validationError (message : String) (field : Option String) : ThrownError
deriving Repr

/-- Whether an error is the Validation-failure variant
(`MoodleValidationError`). -/
def ThrownError.isValidationError : ThrownError → Bool
  | .validationError _ _ => true
  | _ => false

/-- `"k" in obj`: key presence on a field list. -/
def hasField (fields : List (String × Json)) (k : String) : Bool :=
  fields.any (fun e => e.1 == k)

/-- Property lookup on a field list: `some v` when the key is present,
`none` (JavaScript `undefined`) otherwise. -/
def getField (fields : List (String × Json)) (k : String) : Option Json :=
  (fields.find? (fun e => e.1 == k)).map (fun e => e.2)

/-- JavaScript property access `v[k]` on an arbitrary value: only plain
objects yield properties here (array index properties are never string
names used by the client). -/
def jsGetProp : Json → String → Option Json
  | .obj fields, k => getField fields k
  | _, _ => none

/-- `isMoodleErrorResponse` (errors.ts lines 68-77): the value is a
non-null object with a `message` key and an `exception` or `errorcode`
key. Arrays are `typeof "object"` in JavaScript but carry none of these
keys, so they are covered by the `false` branch. -/
def isMoodleErrorResponse : Json → Bool
  | .obj fields =>
    hasField fields "message" && (hasField fields "exception" || hasField fields "errorcode")
  | _ => false

/-- The nullish-coalescing operator `a ?? d`: `d` when `a` is `null` or
`undefined` (absent), `a` otherwise. -/
def jsNullish : Option Json → Json → Json
  | some .null, d => d
  | some v, _ => v
  | none, d => d

/-- JavaScript object-literal insertion (also models one step of a spread):
an existing key keeps its position and gets the new value, a new key is
appended. -/
def jsSetField (fields : List (String × Json)) (k : String) (v : Json) :
    List (String × Json) :=
  if fields.any (fun e => e.1 == k) then
    fields.map (fun e => if e.1 == k then (e.1, v) else e)
  else fields ++ [(k, v)]

/-- `jsSetField` for `SerializableValue` objects. -/
def jsSetParam (fields : SerializableParams) (k : String) (v : SerializableValue) :
    SerializableParams :=
  if fields.any (fun e => e.1 == k) then
    fields.map (fun e => if e.1 == k then (e.1, v) else e)
  else fields ++ [(k, v)]

/-- The object literal of call (index.ts lines 70-75):
`{wstoken: token, wsfunction, moodlewsrestformat: "json", ...params}`.
The three protocol fields are inserted first; the spread then copies the
caller entries one by one with JavaScript last-write-wins semantics (an
existing key keeps its position but takes the caller value). -/
def buildRequestObject (token wsfunction : String) (params : SerializableParams) :
    SerializableParams :=
  params.foldl (fun acc e => jsSetParam acc e.1 e.2)
    [("wstoken", .str token), ("wsfunction", .str wsfunction),
     ("moodlewsrestformat", .str "json")]

/-- The serialized request body of a call: `serializeParams` applied to the
request object (index.ts line 70). -/
def buildRequestBody (token wsfunction : String) (params : SerializableParams) :
    List (String × String) :=
  serializeParams (buildRequestObject token wsfunction params) ""

/-- How the transport (`fetchFn`) behaves on one call, as seen by `call`:
it resolves with a response before the deadline, the deadline fires first
and aborts it (`AbortError`), or it rejects with some other error. The
response body is modelled as already-parsed JSON (`response.json()` on a
2xx response). -/
inductive FetchOutcome where
  | resolved (ok : Bool) (status : Nat) (statusText : String) (body : Json) : FetchOutcome
  | aborted : FetchOutcome
  | failed (name : String) (message : String) : FetchOutcome
deriving Repr

/-- Result of a completed call: either a `CallResult` (`data` plus optional
`warnings`) or a thrown error. -/
inductive CallOutcome where
  | success (data : Json) (warnings : Option (List Json)) : CallOutcome
  | failure (e : ThrownError) : CallOutcome
deriving Repr

/-- A completed call together with the final state of the deadline timer:
`timerArmed = false` means `clearTimeout` ran on the path that produced the
outcome, so the timer cannot fire after completion. -/
structure CallCompletion where
  outcome : CallOutcome
  timerArmed : Bool
deriving Repr

/-- Warning extraction (index.ts lines 112-124): when the parsed body is an
object whose `warnings` property is an array, that array is extracted; the
data value itself is returned unchanged (no unwrapping). -/
def extractWarnings : Json → Option (List Json)
  | .obj fields =>
    match getField fields "warnings" with
    | some (.arr ws) => some ws
    | _ => none
  | _ => none

/-- The `call` executor (index.ts lines 58-146) as a function of the
transport outcome, with the deadline timer threaded explicitly. The timer
is armed at entry (line 79); every completion path below records the
`clearTimeout` the code performs (line 91 on a response, line 131 in the
catch handler). On a non-2xx response the thrown `MoodleNetworkError` is
caught by the same try/catch and re-wrapped (lines 93-97 and 141); a
`MoodleApiError` is rethrown as-is (lines 133-135); an `AbortError` becomes
the timeout message (lines 138-140); any other error is wrapped (line 141). -/
def callExecutor (timeout : Nat) (fetchResult : FetchOutcome) : CallCompletion :=
  match fetchResult with
  | .resolved ok status statusText body =>
    if !ok then
      { outcome := .failure (.networkError ("HTTP " ++ toString status ++ ": " ++ statusText)
          (some ("HTTP " ++ toString status ++ ": " ++ statusText))),
        timerArmed := false }
    else if isMoodleErrorResponse body then
      { outcome := .failure (.apiError (jsGetProp body "message")
          (jsNullish (jsGetProp body "errorcode") (.str "unknown"))
          (jsGetProp body "exception") (jsGetProp body "debuginfo")),
        timerArmed := false }
    else
      { outcome := .success body (extractWarnings body), timerArmed := false }
  | .aborted =>
    { outcome := .failure (.networkError
        ("Request timeout after " ++ toString timeout ++ "ms") none),
      timerArmed := false }
  | .failed name message =>
    if name == "AbortError" then
      { outcome := .failure (.networkError
          ("Request timeout after " ++ toString timeout ++ "ms") none),
        timerArmed := false }
    else
      { outcome := .failure (.networkError message (some message)), timerArmed := false }

/-! ## The client constructor (`src/src/client/MoodleClient.ts`) -/

/-- `MoodleClientConfig`: `baseUrl`, `token`, optional `timeout` (the
`fetch` override carries no data relevant to the claims and is omitted).
An absent string field of the TypeScript interface is modelled as `""`,
which is exactly what the falsy check of the constructor tests. -/
structure MoodleClientConfig where
  baseUrl : String
  token : String
  timeout : Option Nat
deriving Repr

/-- The normalized private `config` of a constructed client. -/
structure MoodleClientState where
  baseUrl : String
  token : String
  timeout : Nat
deriving Repr

/-- The `MoodleClient` constructor (MoodleClient.ts lines 49-66):
`!config.baseUrl` and `!config.token` guard with plain `Error` throws;
the base URL then has trailing slashes stripped (`replace(/\/+$/, "")`)
and the timeout defaults to 30000. -/
def MoodleClient.construct (config : MoodleClientConfig) :
    Except ThrownError MoodleClientState :=
  if config.baseUrl = "" then .error (.jsError "baseUrl is required")
  else if config.token = "" then .error (.jsError "token is required")
  else .ok
    { baseUrl := config.baseUrl.dropRightWhile (fun c => c = '/'),
      token := config.token,
      timeout := config.timeout.getD 30000 }

/-! ## Schema-to-OpenAPI transformer (`scripts/generate-openapi.mjs`)

The script consumes the schema document JSON produced by the external
extraction step. `MSchema` mirrors exactly the fields of a schema node the
script reads: `type`, `description`, `default`, `nullable`, `required`
(both the boolean flag on a property value and the optional list on a
parent object), `items` and `properties`. -/

/-- One node of a Moodle schema tree, holding the fields read by
`moodleTypeToOpenAPI`. `dflt` is the `default` field (any JSON value);
`requiredFlag` is the boolean `required` field of the node itself;
`requiredList` is the optional `required` array of an object node. -/
inductive MSchema where
  | node (typeTag : Option String) (description : Option String)
      (dflt : Option Json) (nullable : Bool) (requiredFlag : Bool)
      (requiredList : Option (List String)) (items : Option MSchema)
      (properties : Option (List (String × MSchema))) : MSchema
deriving Repr

/-- The `required` boolean flag of a node (`value.required === true`). -/
def MSchema.getRequiredFlag : MSchema → Bool
  | .node _ _ _ _ r _ _ _ => r

/-- JavaScript truthiness of an optional string (`s && ...`): present and
nonempty. -/
def truthyStr : Option String → Bool
  | some s => s != ""
  | none => false

/-- `s || d` on an optional string: the string when truthy, `d` otherwise. -/
def orTruthy (v : Option String) (d : String) : String :=
  match v with
  | some s => if s = "" then d else s
  | none => d

/-- `...(schema.description && { description: schema.description })`. -/
def descField (d : Option String) : List (String × Json) :=
  match d with
  | some s => if s = "" then [] else [("description", .str s)]
  | none => []

/-- `...(schema.default !== undefined && { default: schema.default })`. -/
def defaultField : Option Json → List (String × Json)
  | some v => [("default", v)]
  | none => []

/-- `...(schema.nullable && { nullable: true })`. -/
def nullableField (b : Bool) : List (String × Json) :=
  if b then [("nullable", .bool true)] else []

/-- The permissive open-object schema `{type: "object",
additionalProperties: true}`. -/
def permissiveObject : Json :=
  Json.obj [("type", .str "object"), ("additionalProperties", .bool true)]

mutual

/-- `moodleTypeToOpenAPI` (generate-openapi.mjs lines 26-106). `none`
models a falsy `schema` argument. The source also threads a `components`
accumulator parameter which it never reads or writes; that dead parameter
is omitted here. The `pfx` parameter is the source's `prefix` (a Lean
keyword), which is only ever extended and never emitted. -/
def moodleTypeToOpenAPI : Option MSchema → String → Json
  | none, _ => permissiveObject
  | some (.node t d dflt nb _reqF reqL items props), pfx =>
    match t with
    | some "integer" =>
      .obj ([("type", .str "integer")] ++ descField d ++ defaultField dflt ++ nullableField nb)
    | some "number" =>
      .obj ([("type", .str "number")] ++ descField d ++ defaultField dflt ++ nullableField nb)
    | some "boolean" =>
      .obj ([("type", .str "boolean")] ++ descField d ++ defaultField dflt)
    | some "string" =>
      .obj ([("type", .str "string")] ++ descField d ++ defaultField dflt ++ nullableField nb)
    | some "array" =>
      let itemsOut := match items with
        | some it => moodleTypeToOpenAPI (some it) pfx
        | none => permissiveObject
      .obj ([("type", .str "array"), ("items", itemsOut)] ++ descField d)
    | some "object" =>
      match props with
      | none =>
        .obj ([("type", .str "object"), ("additionalProperties", .bool true)] ++ descField d)
      | some ps =>
        if ps.isEmpty then
          .obj ([("type", .str "object"), ("additionalProperties", .bool true)] ++ descField d)
        else
          let built := buildProperties reqL pfx ps
          .obj ([("type", .str "object"), ("properties", .obj built.1)] ++
                (if built.2.isEmpty then [] else [("required", .arr (built.2.map Json.str))]) ++
                descField d)
    | _ => permissiveObject

/-- The `for (const [key, value] of Object.entries(schema.properties))`
loop (lines 86-93): builds the `properties` object and the `required` name
list in entry order. A key is required when the parent `required` list
contains it (`schema.required?.includes(key)`) or its own `required` flag
is `true` (`value.required === true`). -/
def buildProperties (reqL : Option (List String)) (pfx : String) :
    List (String × MSchema) → List (String × Json) × List String
  | [] => ([], [])
  | (key, value) :: rest =>
    let out := moodleTypeToOpenAPI (some value) (pfx ++ "_" ++ key)
    let restOut := buildProperties reqL pfx rest
    ((key, out) :: restOut.1,
     if (match reqL with | some l => l.contains key | none => false) || value.getRequiredFlag
     then key :: restOut.2
     else restOut.2)

end

/-- `toPascalCase` helper: `part.charAt(0).toUpperCase() + part.slice(1)`. -/
def capitalizeFirst (s : String) : String :=
  match s.data with
  | [] => ""
  | c :: rest => String.mk (c.toUpper :: rest)

/-- `toPascalCase` (lines 111-116): split on `_`, capitalize each part,
join. -/
def toPascalCase (s : String) : String :=
  String.join ((s.splitOn "_").map capitalizeFirst)

/-- `getTagFromFunctionName` (lines 317-323): the first two
underscore-delimited segments, or the first alone, or `"misc"` for the
empty name (`parts[0] || "misc"`). -/
def getTagFromFunctionName (name : String) : String :=
  match name.splitOn "_" with
  | p0 :: p1 :: _ => p0 ++ "_" ++ p1
  | [p0] => if p0 = "" then "misc" else p0
  | [] => "misc"

/-- The fixed `tagDescriptions` lookup table (lines 334-400). -/
def tagDescriptions : List (String × String) := [
  ("core_auth", "Authentication functions"),
  ("core_blog", "Blog functions"),
  ("core_calendar", "Calendar functions"),
  ("core_cohort", "Cohort management"),
  ("core_comment", "Comment functions"),
  ("core_competency", "Competency framework"),
  ("core_completion", "Course completion"),
  ("core_course", "Course management"),
  ("core_customfield", "Custom fields"),
  ("core_enrol", "Enrollment functions"),
  ("core_fetch", "Data fetching"),
  ("core_files", "File management"),
  ("core_filters", "Filter functions"),
  ("core_form", "Form functions"),
  ("core_grades", "Grade functions"),
  ("core_group", "Group management"),
  ("core_message", "Messaging functions"),
  ("core_notes", "Notes functions"),
  ("core_output", "Output functions"),
  ("core_question", "Question bank"),
  ("core_rating", "Rating functions"),
  ("core_reportbuilder", "Report builder"),
  ("core_role", "Role management"),
  ("core_search", "Search functions"),
  ("core_session", "Session management"),
  ("core_table", "Table functions"),
  ("core_tag", "Tag functions"),
  ("core_user", "User management"),
  ("core_webservice", "Web service functions"),
  ("core_xapi", "xAPI functions"),
  ("mod_assign", "Assignment module"),
  ("mod_book", "Book module"),
  ("mod_chat", "Chat module"),
  ("mod_choice", "Choice module"),
  ("mod_data", "Database module"),
  ("mod_feedback", "Feedback module"),
  ("mod_folder", "Folder module"),
  ("mod_forum", "Forum module"),
  ("mod_glossary", "Glossary module"),
  ("mod_h5pactivity", "H5P activity module"),
  ("mod_imscp", "IMS content package"),
  ("mod_label", "Label module"),
  ("mod_lesson", "Lesson module"),
  ("mod_lti", "LTI module"),
  ("mod_page", "Page module"),
  ("mod_quiz", "Quiz module"),
  ("mod_resource", "Resource module"),
  ("mod_scorm", "SCORM module"),
  ("mod_survey", "Survey module"),
  ("mod_url", "URL module"),
  ("mod_wiki", "Wiki module"),
  ("mod_workshop", "Workshop module"),
  ("tool_dataprivacy", "Data privacy tools"),
  ("tool_lp", "Learning plans"),
  ("tool_mobile", "Mobile app support"),
  ("tool_policy", "Policy management"),
  ("tool_usertours", "User tours"),
  ("enrol_guest", "Guest enrollment"),
  ("enrol_manual", "Manual enrollment"),
  ("enrol_self", "Self enrollment"),
  ("message_airnotifier", "Airnotifier messaging"),
  ("message_popup", "Popup messaging"),
  ("gradereport_grader", "Grader report"),
  ("gradereport_overview", "Overview report"),
  ("gradereport_user", "User grade report")]

/-- A `FunctionDescriptor` as read by the generator: exactly the fields of
`func` the script accesses. -/
structure MFunction where
  name : String
  description : Option String
  capabilities : Option String
  ajax : Option Bool
  loginrequired : Option Bool
  parameters : Option MSchema
  returns : Option MSchema
deriving Repr

/-- The input schema document: the fields of `schema` the script reads. -/
structure MSchemaDoc where
  moodleVersion : Option String
  moodleRelease : Option String
  functions : Option (List MFunction)
deriving Repr

/-- `generateTags` (lines 328-408): collect tags in first-occurrence order
(a JavaScript `Set`), sort lexicographically, and attach a description
from the lookup table, with `"<tag> functions"` as fallback. -/
def generateTags (functions : List MFunction) : Json :=
  let tags := functions.foldl
    (fun acc f =>
      let t := getTagFromFunctionName f.name
      if acc.contains t then acc else acc ++ [t]) []
  .arr ((tags.mergeSort (fun a b => decide (a ≤ b))).map (fun tag =>
    Json.obj [("name", .str tag),
      ("description", .str (orTruthy ((tagDescriptions.find? (fun e => e.1 == tag)).map (fun e => e.2))
        (tag ++ " functions")))]))

/-- The `MoodleError` component schema appended after the loop
(lines 219-240). -/
def moodleErrorSchema : Json :=
  Json.obj [
    ("type", .str "object"),
    ("properties", .obj [
      ("exception", .obj [("type", .str "string"),
        ("description", .str "The exception class name")]),
      ("errorcode", .obj [("type", .str "string"),
        ("description", .str "The error code")]),
      ("message", .obj [("type", .str "string"),
        ("description", .str "Human-readable error message")]),
      ("debuginfo", .obj [("type", .str "string"),
        ("description", .str "Debug information (only in development mode)")])]),
    ("required", .arr [.str "message"])]

/-- The `MoodleWarning` component schema (lines 243-264). -/
def moodleWarningSchema : Json :=
  Json.obj [
    ("type", .str "object"),
    ("properties", .obj [
      ("item", .obj [("type", .str "string"),
        ("description", .str "Item that triggered the warning")]),
      ("itemid", .obj [("type", .str "integer"),
        ("description", .str "ID of the item")]),
      ("warningcode", .obj [("type", .str "string"),
        ("description", .str "Warning code")]),
      ("message", .obj [("type", .str "string"),
        ("description", .str "Warning message")])]),
    ("required", .arr [.str "warningcode", .str "message"])]

/-- The `post` operation object built for one function (lines 166-215).
The source sets `description: func.description || undefined`; the key is
then present with value `undefined`, modelled as `Json.null` (the YAML
emitter renders both as `null`). -/
def buildPostOperation (func : MFunction) (requestSchemaName responseSchemaName : String) : Json :=
  Json.obj ([
    ("operationId", .str func.name),
    ("summary", .str (orTruthy func.description ("Call " ++ func.name))),
    ("description", match func.description with
      | some s => if s = "" then Json.null else .str s
      | none => Json.null),
    ("tags", .arr [.str (getTagFromFunctionName func.name)])] ++
    (match func.capabilities with
     | some c => if c = "" then [] else [("x-moodle-capabilities", .str c)]
     | none => []) ++
    (match func.ajax with
     | some b => [("x-moodle-ajax", .bool b)]
     | none => []) ++
    (match func.loginrequired with
     | some b => [("x-moodle-login-required", .bool b)]
     | none => []) ++
    [("requestBody", .obj [
       ("required", .bool true),
       ("content", .obj [
         ("application/x-www-form-urlencoded", .obj [
           ("schema", .obj [("$ref", .str ("#/components/schemas/" ++ requestSchemaName))])])])]),
     ("responses", .obj [
       ("200", .obj [
         ("description", .str "Successful response"),
         ("content", .obj [
           ("application/json", .obj [
             ("schema", .obj [("$ref", .str ("#/components/schemas/" ++ responseSchemaName))])])])]),
       ("400", .obj [
         ("description", .str "Bad request - invalid parameters"),
         ("content", .obj [
           ("application/json", .obj [
             ("schema", .obj [("$ref", .str "#/components/schemas/MoodleError")])])])]),
       ("401", .obj [
         ("description", .str "Unauthorized - invalid or missing token"),
         ("content", .obj [
           ("application/json", .obj [
             ("schema", .obj [("$ref", .str "#/components/schemas/MoodleError")])])])])]),
     ("security", .arr [.obj [("wstoken", .arr [])]])])

/-- The per-function loop of `generateOpenAPISpec` (lines 127-216): builds
`components.schemas` and `paths` in function order. Object assignment is
an upsert (`jsSetField`). -/
def processFunctions (funcs : List MFunction) :
    List (String × Json) × List (String × Json) :=
  funcs.foldl
    (fun acc func =>
      let pascalName := toPascalCase func.name
      let requestSchemaName := pascalName ++ "Request"
      let responseSchemaName := pascalName ++ "Response"
      let schemas1 := jsSetField acc.1 requestSchemaName
        (match func.parameters with
         | some p => moodleTypeToOpenAPI (some p) requestSchemaName
         | none => Json.obj [("type", .str "object"), ("properties", .obj [])])
      let schemas2 := jsSetField schemas1 responseSchemaName
        (match func.returns with
         | some r => moodleTypeToOpenAPI (some r) responseSchemaName
         | none => Json.obj [("type", .str "object"), ("nullable", .bool true)])
      let path := "/webservice/rest/" ++ func.name
      (schemas2,
       jsSetField acc.2 path
         (Json.obj [("post", buildPostOperation func requestSchemaName responseSchemaName)])))
    ([], [])

/-- `generateOpenAPISpec` (lines 121-312). The source reads the clock
(`new Date().toISOString()` on line 272) while building `info.description`;
that clock reading is the explicit `now` parameter here. The `schemaName`
parameter of the source is never used in the function body and is kept as
an unused parameter. -/
def generateOpenAPISpec (schema : MSchemaDoc) (schemaName : String) (now : String) : Json :=
  let built := processFunctions (schema.functions.getD [])
  let schemas := jsSetField (jsSetField built.1 "MoodleError" moodleErrorSchema)
    "MoodleWarning" moodleWarningSchema
  let _ := schemaName
  Json.obj [
    ("openapi", .str "3.1.0"),
    ("info", .obj [
      ("title", .str "Moodle Web Services API"),
      ("version", .str (orTruthy schema.moodleVersion "unknown")),
      ("description", .str ("Auto-generated OpenAPI specification for Moodle Web Services.\n\nMoodle Release: "
        ++ orTruthy schema.moodleRelease "unknown" ++ "\nGenerated: " ++ now)),
      ("contact", .obj [("name", .str "Moodle"), ("url", .str "https://moodle.org")]),
      ("license", .obj [("name", .str "GPL-3.0"),
        ("url", .str "https://www.gnu.org/licenses/gpl-3.0.html")])]),
    ("servers", .arr [
      .obj [("url", .str "\x7bbaseUrl\x7d"),
        ("description", .str "Moodle instance"),
        ("variables", .obj [
          ("baseUrl", .obj [
            ("default", .str "https://moodle.example.com"),
            ("description", .str "The base URL of your Moodle installation")])])]]),
    ("security", .arr [.obj [("wstoken", .arr [])]]),
    ("tags", generateTags (schema.functions.getD [])),
    ("paths", .obj built.2),
    ("components", .obj [
      ("schemas", .obj schemas),
      ("securitySchemes", .obj [
        ("wstoken", .obj [
          ("type", .str "apiKey"),
          ("in", .str "query"),
          ("name", .str "wstoken"),
          ("description", .str "Web service token. Generate in Moodle: Site administration > Plugins > Web services > Manage tokens")])])])]

/-! ## JSON-to-YAML emitter (`scripts/generate-openapi.mjs` lines 438-511) -/

mutual

/-- JavaScript `String(value)` on a JSON value: the fallback of
`formatYamlValue` (reachable only for arrays and plain objects there).
`Array.prototype.toString` joins elements with `","`, rendering `null`
elements as the empty string; a plain object stringifies to
`"[object Object]"`. -/
def jsString : Json → String
  | .null => "null"
  | .bool b => if b then "true" else "false"
  | .num n => toString n
  | .str s => s
  | .arr items => jsStringJoin items
  | .obj _ => "[object Object]"

/-- `Array.prototype.join(",")` over JSON elements. -/
def jsStringJoin : List Json → String
  | [] => ""
  | [x] => jsStringElem x
  | x :: rest => jsStringElem x ++ "," ++ jsStringJoin rest

/-- One joined element: `null` renders empty inside a join. -/
def jsStringElem : Json → String
  | .null => ""
  | v => jsString v

end

/-- `value.includes(c)` for a one-character needle. -/
def strContains (s : String) (c : Char) : Bool :=
  s.data.contains c

/-- `value.startsWith(c)` for a one-character needle. -/
def strStartsWith (s : String) (c : Char) : Bool :=
  match s.data with
  | x :: _ => x == c
  | [] => false

/-- `value.endsWith(c)` for a one-character needle. -/
def strEndsWith (s : String) (c : Char) : Bool :=
  match s.data.getLast? with
  | some x => x == c
  | none => false

/-- `value.toLowerCase()`. -/
def strToLower (s : String) : String :=
  String.mk (s.data.map Char.toLower)

/-- `value.trim()` (the emitter only ever trims the ASCII whitespace it
itself produced). -/
def strTrim (s : String) : String :=
  String.mk (((s.data.dropWhile Char.isWhitespace).reverse.dropWhile Char.isWhitespace).reverse)

/-- `value.split(ch)` for a one-character separator. -/
def splitOnChar (sep : Char) (l : List Char) : List (List Char) :=
  match l with
  | [] => [[]]
  | c :: rest =>
    let r := splitOnChar sep rest
    if c == sep then [] :: r
    else
      match r with
      | h :: t => (c :: h) :: t
      | [] => [[c]]

/-- `value.split("\n")` as strings. -/
def splitLines (s : String) : List String :=
  (splitOnChar '\n' s.data).map String.mk

/-- The list of YAML reserved words tested by `formatYamlValue`
(line 504). -/
def yamlReserved : List String := ["true", "false", "null", "yes", "no"]

/-- The quoting condition of `formatYamlValue` (lines 496-505): empty,
contains `:`/`#`/newline, starts or ends with a space character, starts
with a decimal digit, or lowercases to a reserved word. -/
def needsQuoting (value : String) : Bool :=
  value == "" || strContains value ':' || strContains value '#' ||
  strContains value '\n' || strStartsWith value ' ' || strEndsWith value ' ' ||
  (match value.data with
   | c :: _ => c.isDigit
   | [] => false) ||
  yamlReserved.contains (strToLower value)

/-- The escaping applied inside quotes (line 506): the two sequential
global replaces (embedded double quotes to backslash-quote, then newlines
to a literal backslash-n) act on disjoint characters, so one left-to-right
pass is the same function. -/
def escapeYamlString (s : String) : String :=
  String.mk (s.data.flatMap (fun c =>
    if c == '"' then ['\\', '"']
    else if c == '\n' then ['\\', 'n']
    else [c]))

/-- `formatYamlValue` (lines 489-511): `null`/`undefined` to `null`,
booleans and numbers literally, strings quoted when `needsQuoting` holds
and bare otherwise, `String(value)` as fallback. -/
def formatYamlValue : Json → String
  | .null => "null"
  | .bool b => if b then "true" else "false"
  | .num n => toString n
  | .str value => if needsQuoting value then "\"" ++ escapeYamlString value ++ "\"" else value
  | other => jsString other

/-- `"  ".repeat(indent)`. -/
def strRepeat (s : String) (n : Nat) : String :=
  String.join (List.replicate n s)

/-- The `/^[a-zA-Z_][a-zA-Z0-9_]*$/` test on a mapping key (line 471). -/
def isSafeYamlKey (key : String) : Bool :=
  match key.data with
  | [] => false
  | c :: rest => (c.isAlpha || c == '_') && rest.all (fun ch => ch.isAlphanum || ch == '_')

mutual

/-- `jsonToYaml` (lines 438-487): arrays and objects render line-oriented
YAML (empty ones render `[]`/`{}` inline), any other value renders through
`formatYamlValue`. -/
def jsonToYaml (obj : Json) (indent : Nat) : String :=
  match obj with
  | .arr items => if items.isEmpty then "[]" else yamlArrLoop indent items
  | .obj fields => if fields.isEmpty then "{}" else yamlObjLoop indent fields
  | other => formatYamlValue other

/-- The `for (const item of obj)` loop of the array branch (lines 446-461):
an object/array item renders with its first nonblank line on the dash line
and the remaining lines re-indented two further spaces; any other item
renders as a `- value` line. -/
def yamlArrLoop (indent : Nat) : List Json → String
  | [] => ""
  | item :: rest =>
    (match item with
     | .arr _ | .obj _ =>
       let spaces := strRepeat "  " indent
       let itemYaml := jsonToYaml item (indent + 1)
       let lines := (splitLines itemYaml).filter (fun l => strTrim l != "")
       "\n" ++ spaces ++ "-" ++
       (match lines with
        | [] => ""
        | l0 :: restLines =>
          " " ++ strTrim l0 ++ String.join (restLines.map (fun l => "\n" ++ spaces ++ "  " ++ strTrim l)))
     | _ => "\n" ++ strRepeat "  " indent ++ "- " ++ formatYamlValue item)
    ++ yamlArrLoop indent rest

/-- The `for (const [key, value] of entries)` loop of the object branch
(lines 470-482): nested objects/arrays whose rendering starts on a new
line (or is inline `{}`/`[]`) attach after a bare `key:`; scalars render
as `key: value` lines. -/
def yamlObjLoop (indent : Nat) : List (String × Json) → String
  | [] => ""
  | (key, value) :: rest =>
    (let spaces := strRepeat "  " indent
     let safeKey := if isSafeYamlKey key then key else "\"" ++ key ++ "\""
     match value with
     | .arr _ | .obj _ =>
       let nested := jsonToYaml value (indent + 1)
       if strStartsWith nested '\n' || nested == "{}" || nested == "[]" then
         spaces ++ safeKey ++ ":" ++
           (if nested == "{}" || nested == "[]" then " " ++ nested else nested) ++ "\n"
       else
         spaces ++ safeKey ++ ": " ++ nested ++ "\n"
     | _ => spaces ++ safeKey ++ ": " ++ formatYamlValue value ++ "\n")
    ++ yamlObjLoop indent rest

end

/-! ## Auxiliary observation functions used by the theorems -/

/-- Value lookup in a `SerializableValue` object (first entry wins, as in a
JavaScript object, whose keys are unique). -/
def lookupParam (fields : SerializableParams) (k : String) : Option SerializableValue :=
  (fields.find? (fun e => e.1 == k)).map (fun e => e.2)

/-- The generation timestamp the generator embeds: the string value at
`info.description` of an OpenAPI document (empty for any other shape). -/
def infoDescriptionOf (doc : Json) : String :=
  match (jsGetProp doc "info").bind (fun i => jsGetProp i "description") with
  | some (.str s) => s
  | _ => ""

/-- The document with the clock-dependent `info.description` field masked
to `null`, leaving every other part intact. -/
def stripGeneratedAt (doc : Json) : Json :=
  match doc with
  | .obj fields =>
    .obj (fields.map (fun e =>
      if e.1 == "info" then
        (e.1, match e.2 with
          | .obj infoFields =>
            Json.obj (infoFields.map (fun f =>
              if f.1 == "description" then (f.1, Json.null) else f))
          | other => other)
      else e))
  | other => other

/-- Modelled from the spec (claim C10 wording): the quoting triggers the
spec lists for the YAML emitter — empty, contains `:` or `#`, leading or
trailing whitespace, starts with a digit, or case-insensitively a reserved
word. Stated independently of the code path for comparison. -/
def specQuoteTrigger (value : String) : Bool :=
  value == "" || strContains value ':' || strContains value '#' ||
  (match value.data with | c :: _ => c.isWhitespace | [] => false) ||
  (match value.data.getLast? with | some c => c.isWhitespace | none => false) ||
  (match value.data with | c :: _ => c.isDigit | [] => false) ||
  yamlReserved.contains (strToLower value)

/-- Modelled from the amended claim C10: the spec trigger list corrected to
match the code — a contained newline also triggers quoting, and the
whitespace tests mean the space character. Stated independently of
`needsQuoting` for comparison. -/
def specAmendedQuoteTrigger (value : String) : Bool :=
  value == "" || strContains value ':' || strContains value '#' ||
  strContains value '\n' || strStartsWith value ' ' || strEndsWith value ' ' ||
  (match value.data with | c :: _ => c.isDigit | [] => false) ||
  yamlReserved.contains (strToLower value)

/-! ## Theorems -/

mutual

theorem appendParam_length (key : String) (v : SerializableValue) :
    (appendParam key v).length = scalarCount v :=
  match v with
  | .null => rfl
  | .bool _ => rfl
  | .num _ => rfl
  | .str _ => rfl
  | .arr items => appendArrItems_length key 0 items
  | .obj entries => appendObjEntries_length key entries

theorem appendArrItems_length (key : String) (i : Nat) (l : List SerializableValue) :
    (appendArrItems key i l).length = scalarCountList l :=
  match l with
  | [] => rfl
  | item :: rest => by
    have hrest := appendArrItems_length key (i + 1) rest
    cases item with
    | null =>
      show ((appendParam (key ++ "[" ++ toString i ++ "]") .null)
          ++ appendArrItems key (i + 1) rest).length = 0 + scalarCountList rest
      rw [List.length_append, hrest]
      rfl
    | bool b =>
      show ((appendParam (key ++ "[" ++ toString i ++ "]") (.bool b))
          ++ appendArrItems key (i + 1) rest).length = 1 + scalarCountList rest
      rw [List.length_append, hrest]
      rfl
    | num n =>
      show ((appendParam (key ++ "[" ++ toString i ++ "]") (.num n))
          ++ appendArrItems key (i + 1) rest).length = 1 + scalarCountList rest
      rw [List.length_append, hrest]
      rfl
    | str s =>
      show ((appendParam (key ++ "[" ++ toString i ++ "]") (.str s))
          ++ appendArrItems key (i + 1) rest).length = 1 + scalarCountList rest
      rw [List.length_append, hrest]
      rfl
    | arr xs =>
      have h := appendArrIndexEntries_length (key ++ "[" ++ toString i ++ "]") 0 xs
      show ((appendArrIndexEntries (key ++ "[" ++ toString i ++ "]") 0 xs)
          ++ appendArrItems key (i + 1) rest).length = scalarCountList xs + scalarCountList rest
      rw [List.length_append, h, hrest]
    | obj es =>
      have h := appendObjEntries_length (key ++ "[" ++ toString i ++ "]") es
      show ((appendObjEntries (key ++ "[" ++ toString i ++ "]") es)
          ++ appendArrItems key (i + 1) rest).length = scalarCountEntries es + scalarCountList rest
      rw [List.length_append, h, hrest]

theorem appendObjEntries_length (key : String) (l : List (String × SerializableValue)) :
    (appendObjEntries key l).length = scalarCountEntries l :=
  match l with
  | [] => rfl
  | (subKey, subValue) :: rest => by
    have h1 := appendParam_length (key ++ "[" ++ subKey ++ "]") subValue
    have h2 := appendObjEntries_length key rest
    show (appendParam (key ++ "[" ++ subKey ++ "]") subValue ++ appendObjEntries key rest).length
        = scalarCount subValue + scalarCountEntries rest
    rw [List.length_append, h1, h2]

theorem appendArrIndexEntries_length (key : String) (j : Nat) (l : List SerializableValue) :
    (appendArrIndexEntries key j l).length = scalarCountList l :=
  match l with
  | [] => rfl
  | x :: rest => by
    have h1 := appendParam_length (key ++ "[" ++ toString j ++ "]") x
    have h2 := appendArrIndexEntries_length key (j + 1) rest
    show (appendParam (key ++ "[" ++ toString j ++ "]") x ++ appendArrIndexEntries key (j + 1) rest).length
        = scalarCount x + scalarCountList rest
    rw [List.length_append, h1, h2]

end

/-- C5: for every (acyclic, by construction of the inductive type)
`SerializableParams` input and every prefix, `serializeParams` emits
exactly one flat key/value entry per terminal scalar reachable in the
input tree and none for `null`/`undefined` branches (the entry count
equals the reachable-scalar count, which counts `null` branches as zero);
being a total Lean function, it raises no exception on any such input. -/
theorem serializeParams_entry_count (params : SerializableParams) (pfx : String) :
    (serializeParams params pfx).length = scalarCountEntries params := by
  induction params with
  | nil => rfl
  | cons e rest ih =>
    show (appendParam (if pfx = "" then e.1 else pfx ++ "[" ++ e.1 ++ "]") e.2
        ++ serializeParams rest pfx).length = scalarCount e.2 + scalarCountEntries rest
    rw [List.length_append, appendParam_length, ih]

/-- C6: `serialize({a:[{x:1},{x:2}]})` yields exactly `a[0][x]=1` then
`a[1][x]=2`, and `serialize({flag: true, missing: null})` yields exactly
`flag=1`. -/
theorem serializeParams_examples :
    serializeParams [("a", .arr [.obj [("x", .num 1)], .obj [("x", .num 2)]])] "" =
      [("a[0][x]", "1"), ("a[1][x]", "2")] ∧
    serializeParams [("flag", .bool true), ("missing", .null)] "" = [("flag", "1")] :=
  ⟨rfl, rfl⟩

theorem jsSetParam_absent (acc : SerializableParams) (k : String) (v : SerializableValue)
    (h : acc.any (fun e => e.1 == k) = false) :
    jsSetParam acc k v = acc ++ [(k, v)] := by
  simp [jsSetParam, h]

theorem foldl_jsSetParam_append (params : SerializableParams) :
    ∀ acc : SerializableParams,
      (∀ e ∈ params, acc.any (fun a => a.1 == e.1) = false) →
      (params.map Prod.fst).Nodup →
      params.foldl (fun a e => jsSetParam a e.1 e.2) acc = acc ++ params := by
  induction params with
  | nil => intro acc _ _; simp
  | cons e rest ih =>
    intro acc h hnd
    have habs : acc.any (fun a => a.1 == e.1) = false := h e (List.mem_cons_self e rest)
    have hstep : jsSetParam acc e.1 e.2 = acc ++ [e] := jsSetParam_absent acc e.1 e.2 habs
    have hrest : ∀ x ∈ rest, (acc ++ [e]).any (fun a => a.1 == x.1) = false := by
      intro x hx
      have h1 : acc.any (fun a => a.1 == x.1) = false := h x (List.mem_cons_of_mem e hx)
      have h2 : (e.1 == x.1) = false := by
        have : e.1 ∉ rest.map Prod.fst := by
          have := hnd
          simp only [List.map_cons, List.nodup_cons] at this
          exact this.1
        have hne : e.1 ≠ x.1 := fun hc => this (hc ▸ List.mem_map_of_mem Prod.fst hx)
        simpa using hne
      simp [List.any_append, h1, h2]
    have hnd2 : (rest.map Prod.fst).Nodup := by
      simp only [List.map_cons, List.nodup_cons] at hnd
      exact hnd.2
    calc (e :: rest).foldl (fun a e => jsSetParam a e.1 e.2) acc
        = rest.foldl (fun a e => jsSetParam a e.1 e.2) (jsSetParam acc e.1 e.2) := rfl
      _ = rest.foldl (fun a e => jsSetParam a e.1 e.2) (acc ++ [e]) := by rw [hstep]
      _ = (acc ++ [e]) ++ rest := ih (acc ++ [e]) hrest hnd2
      _ = acc ++ (e :: rest) := by simp

theorem lookup_update_self (k : String) (v : SerializableValue) :
    ∀ acc : SerializableParams, acc.any (fun e => e.1 == k) = true →
      lookupParam (acc.map (fun e => if e.1 == k then (e.1, v) else e)) k = some v := by
  intro acc
  induction acc with
  | nil => intro h; simp at h
  | cons a rest ih =>
    intro h
    by_cases ha : (a.1 == k) = true
    · simp [lookupParam, List.find?, ha]
    · have ha' : (a.1 == k) = false := by simpa using ha
      have hrest : rest.any (fun e => e.1 == k) = true := by
        simpa [List.any_cons, ha'] using h
      have := ih hrest
      simpa [lookupParam, List.find?, ha'] using this

theorem lookup_update_ne (k k2 : String) (v2 : SerializableValue) (hne : (k2 == k) = false) :
    ∀ acc : SerializableParams,
      lookupParam (acc.map (fun e => if e.1 == k2 then (e.1, v2) else e)) k = lookupParam acc k := by
  intro acc
  induction acc with
  | nil => rfl
  | cons a rest ih =>
    by_cases ha : (a.1 == k2) = true
    · have hak : (a.1 == k) = false := by
        have : a.1 = k2 := by simpa using ha
        simpa [this] using hne
      simp [lookupParam, List.find?, ha, hak] at ih ⊢
      exact ih
    · have ha' : (a.1 == k2) = false := by simpa using ha
      by_cases hak : (a.1 == k) = true
      · simp [lookupParam, List.find?, ha', hak]
      · have hak' : (a.1 == k) = false := by simpa using hak
        simp [lookupParam, List.find?, ha', hak'] at ih ⊢
        exact ih

theorem lookup_append_absent (k : String) (l2 : SerializableParams) :
    ∀ l1 : SerializableParams, l1.any (fun e => e.1 == k) = false →
      lookupParam (l1 ++ l2) k = lookupParam l2 k := by
  intro l1
  induction l1 with
  | nil => intro _; rfl
  | cons a rest ih =>
    intro h
    have ha : (a.1 == k) = false := by
      simp [List.any_cons] at h
      simpa using h.1
    have hrest : rest.any (fun e => e.1 == k) = false := by
      simp [List.any_cons] at h
      simpa using h.2
    simpa [lookupParam, List.find?, ha] using ih hrest

theorem lookup_jsSetParam_self (acc : SerializableParams) (k : String) (v : SerializableValue) :
    lookupParam (jsSetParam acc k v) k = some v := by
  by_cases h : acc.any (fun e => e.1 == k) = true
  · rw [show jsSetParam acc k v = acc.map (fun e => if e.1 == k then (e.1, v) else e) by
      simp [jsSetParam, h]]
    exact lookup_update_self k v acc h
  · have h' : acc.any (fun e => e.1 == k) = false := Bool.eq_false_iff.mpr h
    rw [jsSetParam_absent acc k v h', lookup_append_absent k [(k, v)] acc h']
    simp [lookupParam, List.find?]

theorem lookup_jsSetParam_ne (acc : SerializableParams) (k k2 : String) (v2 : SerializableValue)
    (hne : (k2 == k) = false) :
    lookupParam (jsSetParam acc k2 v2) k = lookupParam acc k := by
  by_cases h : acc.any (fun e => e.1 == k2) = true
  · rw [show jsSetParam acc k2 v2 = acc.map (fun e => if e.1 == k2 then (e.1, v2) else e) by
      simp [jsSetParam, h]]
    exact lookup_update_ne k k2 v2 hne acc
  · have h' : acc.any (fun e => e.1 == k2) = false := Bool.eq_false_iff.mpr h
    rw [jsSetParam_absent acc k2 v2 h']
    cases hfind : (acc.find? (fun e => e.1 == k)) with
    | some a =>
      have : lookupParam (acc ++ [(k2, v2)]) k = some a.2 := by
        simp only [lookupParam]
        rw [List.find?_append, hfind]
        rfl
      simp [lookupParam, hfind, this]
    | none =>
      have : lookupParam (acc ++ [(k2, v2)]) k = lookupParam [(k2, v2)] k := by
        simp only [lookupParam]
        rw [List.find?_append, hfind]
        rfl
      simp [lookupParam, hfind, this, List.find?, hne]

theorem lookup_foldl_ne (k : String) (params : SerializableParams) :
    ∀ acc : SerializableParams, (∀ e ∈ params, (e.1 == k) = false) →
      lookupParam (params.foldl (fun a e => jsSetParam a e.1 e.2) acc) k = lookupParam acc k := by
  induction params with
  | nil => intro acc _; rfl
  | cons e rest ih =>
    intro acc h
    have he : (e.1 == k) = false := h e (List.mem_cons_self e rest)
    calc lookupParam ((e :: rest).foldl (fun a e => jsSetParam a e.1 e.2) acc) k
        = lookupParam (rest.foldl (fun a e => jsSetParam a e.1 e.2) (jsSetParam acc e.1 e.2)) k := rfl
      _ = lookupParam (jsSetParam acc e.1 e.2) k :=
          ih (jsSetParam acc e.1 e.2) (fun x hx => h x (List.mem_cons_of_mem e hx))
      _ = lookupParam acc k := lookup_jsSetParam_ne acc k e.1 e.2 he

theorem lookup_foldl_mem (k : String) (v : SerializableValue) (params : SerializableParams) :
    ∀ acc : SerializableParams, (params.map Prod.fst).Nodup → (k, v) ∈ params →
      lookupParam (params.foldl (fun a e => jsSetParam a e.1 e.2) acc) k = some v := by
  induction params with
  | nil => intro acc _ hmem; simp at hmem
  | cons e rest ih =>
    intro acc hnd hmem
    rcases List.mem_cons.mp hmem with heq | hmem2
    · have hk : e.1 = k := by rw [← heq]
      have hv : e.2 = v := by rw [← heq]
      have hnotin : k ∉ rest.map Prod.fst := by
        simp only [List.map_cons, List.nodup_cons] at hnd
        rw [← hk]
        exact hnd.1
      have hall : ∀ x ∈ rest, (x.1 == k) = false := by
        intro x hx
        have : x.1 ≠ k := fun hc => hnotin (hc ▸ List.mem_map_of_mem Prod.fst hx)
        simpa using this
      calc lookupParam ((e :: rest).foldl (fun a e => jsSetParam a e.1 e.2) acc) k
          = lookupParam (rest.foldl (fun a e => jsSetParam a e.1 e.2) (jsSetParam acc e.1 e.2)) k := rfl
        _ = lookupParam (jsSetParam acc e.1 e.2) k := lookup_foldl_ne k rest _ hall
        _ = some v := by rw [hk, hv]; exact lookup_jsSetParam_self acc k v
    · have hnd2 : (rest.map Prod.fst).Nodup := by
        simp only [List.map_cons, List.nodup_cons] at hnd
        exact hnd.2
      exact ih (jsSetParam acc e.1 e.2) hnd2 hmem2

/-- C1 counterexample: with configured token `"good"`, a caller-supplied
`wstoken` entry wins — the serialized body carries `wstoken=evil`, not the
configured token, because the source spreads `...params` last. -/
theorem buildRequestBody_override_counterexample :
    buildRequestBody "good" "f" [("wstoken", .str "evil")] =
      [("wstoken", "evil"), ("wsfunction", "f"), ("moodlewsrestformat", "json")] ∧
    ("evil" : String) ≠ "good" :=
  ⟨rfl, by decide⟩

/-- C1 amended: the three protocol fields are injected first, but the
caller spread is written last, so a caller-supplied entry with the same
key overrides the injected value (caller wins, not the protocol field).
When the caller params contain none of the three protocol keys, the
serialized body is exactly `wstoken=token`, `wsfunction=functionName`,
`moodlewsrestformat=json` followed by the serialized caller params; when
the caller params contain a `wstoken` entry, the request object carries
the caller value for `wstoken`. -/
theorem buildRequestBody_protocol_injection (token fn : String) (params : SerializableParams)
    (hnd : (params.map Prod.fst).Nodup) :
    ((∀ e ∈ params, e.1 ≠ "wstoken" ∧ e.1 ≠ "wsfunction" ∧ e.1 ≠ "moodlewsrestformat") →
      buildRequestBody token fn params =
        ("wstoken", token) :: ("wsfunction", fn) :: ("moodlewsrestformat", "json")
          :: serializeParams params "") ∧
    (∀ v, ("wstoken", v) ∈ params →
      lookupParam (buildRequestObject token fn params) "wstoken" = some v) := by
  constructor
  · intro h
    have hobj : buildRequestObject token fn params =
        [("wstoken", SerializableValue.str token), ("wsfunction", .str fn),
         ("moodlewsrestformat", .str "json")] ++ params := by
      apply foldl_jsSetParam_append params _ _ hnd
      intro e he
      rcases h e he with ⟨h1, h2, h3⟩
      simp [List.any_cons, h1.symm, h2.symm, h3.symm]
    show serializeParams (buildRequestObject token fn params) "" = _
    rw [hobj]
    show (([("wstoken", SerializableValue.str token), ("wsfunction", .str fn),
      ("moodlewsrestformat", .str "json")] ++ params).flatMap _) = _
    rw [List.flatMap_append]
    rfl
  · intro v hv
    exact lookup_foldl_mem "wstoken" v params _ hnd hv

/-- Witness for the amended C1 at a concrete non-colliding input. -/
theorem buildRequestBody_protocol_injection_witness :
    buildRequestBody "tok" "core_x" [("userid", .num 7)] =
      ("wstoken", "tok") :: ("wsfunction", "core_x") :: ("moodlewsrestformat", "json")
        :: serializeParams [("userid", .num 7)] "" :=
  (buildRequestBody_protocol_injection "tok" "core_x" [("userid", .num 7)] (by decide)).1
    (by intro e he; simp at he; simp [he])

/-- C3 counterexample: constructing a client with an empty `baseUrl`
throws a plain `Error`, not the `MoodleValidationError` variant, and
carries no structured field name. -/
theorem construct_counterexample :
    MoodleClient.construct { baseUrl := "", token := "t", timeout := none } =
      .error (.jsError "baseUrl is required") ∧
    (ThrownError.jsError "baseUrl is required").isValidationError = false :=
  ⟨rfl, rfl⟩

/-- C3 amended: constructing a `MoodleClient` whose config has a missing
(empty) `baseUrl` or `token` fails immediately and synchronously at
construction time with a plain `Error` whose message names the offending
field (`"baseUrl is required"` / `"token is required"`); the error is not
the Validation-failure variant of the taxonomy, and indeed no error this
constructor produces is. -/
theorem construct_missing_config (config : MoodleClientConfig) :
    (config.baseUrl = "" →
      MoodleClient.construct config = .error (.jsError "baseUrl is required")) ∧
    (config.baseUrl ≠ "" → config.token = "" →
      MoodleClient.construct config = .error (.jsError "token is required")) ∧
    (∀ e, MoodleClient.construct config = .error e → e.isValidationError = false) := by
  refine ⟨?_, ?_, ?_⟩
  · intro h
    simp [MoodleClient.construct, h]
  · intro h1 h2
    simp [MoodleClient.construct, h1, h2]
  · intro e he
    unfold MoodleClient.construct at he
    split at he
    · injection he with he2
      rw [← he2]
      rfl
    · split at he
      · injection he with he2
        rw [← he2]
        rfl
      · exact absurd he (by simp)

/-- Witness for the amended C3 at a concrete config missing its token. -/
theorem construct_missing_config_witness :
    MoodleClient.construct { baseUrl := "https://m.example", token := "", timeout := none } =
      .error (.jsError "token is required") :=
  (construct_missing_config { baseUrl := "https://m.example", token := "", timeout := none }).2.1
    (by decide) rfl

/-- C4: a parsed response object with a `message` field and an `exception`
or `errorcode` field makes the call fail with an API error carrying that
message, the error code (`"unknown"` when `errorcode` is absent), the
exception name and the debug info; an object with `message` but neither
key is not classified as an API error and is returned on the success path
with the parsed body as data. -/
theorem call_classifies_api_errors (timeout status : Nat) (stext : String)
    (fields : List (String × Json)) (hmsg : hasField fields "message" = true) :
    ((hasField fields "exception" || hasField fields "errorcode") = true →
      (callExecutor timeout (.resolved true status stext (.obj fields))).outcome =
        .failure (.apiError (getField fields "message")
          (jsNullish (getField fields "errorcode") (.str "unknown"))
          (getField fields "exception") (getField fields "debuginfo"))) ∧
    (hasField fields "errorcode" = false →
      jsNullish (getField fields "errorcode") (.str "unknown") = .str "unknown") ∧
    ((hasField fields "exception" || hasField fields "errorcode") = false →
      (callExecutor timeout (.resolved true status stext (.obj fields))).outcome =
        .success (.obj fields) (extractWarnings (.obj fields))) := by
  refine ⟨?_, ?_, ?_⟩
  · intro h
    simp [callExecutor, isMoodleErrorResponse, hmsg, h, jsGetProp]
  · intro h
    have h' : fields.any (fun e => e.1 == "errorcode") = false := h
    have hnone : fields.find? (fun e => e.1 == "errorcode") = none := by
      rw [List.find?_eq_none]
      intro x hx hc
      have habs : fields.any (fun e => e.1 == "errorcode") = true :=
        List.any_eq_true.mpr ⟨x, hx, hc⟩
      rw [h'] at habs
      cases habs
    simp [getField, hnone, jsNullish]
  · intro h
    simp [callExecutor, isMoodleErrorResponse, hmsg, h]

/-- Witness for C4 at the two concrete bodies the spec names. -/
theorem call_classifies_api_errors_witness :
    (callExecutor 30000 (.resolved true 200 "OK"
        (.obj [("message", .str "Invalid token"), ("errorcode", .str "invalidtoken")]))).outcome =
      .failure (.apiError (some (.str "Invalid token")) (.str "invalidtoken") none none) ∧
    (callExecutor 30000 (.resolved true 200 "OK" (.obj [("message", .str "x")]))).outcome =
      .success (.obj [("message", .str "x")]) none :=
  ⟨(call_classifies_api_errors 30000 200 "OK"
      [("message", .str "Invalid token"), ("errorcode", .str "invalidtoken")] rfl).1 rfl,
   (call_classifies_api_errors 30000 200 "OK" [("message", .str "x")] rfl).2.2 rfl⟩

/-- C7: when the deadline fires before the transport resolves the call
fails with a network error whose message contains the configured timeout
value; every completion path disarms the deadline timer (so it never
fires after completion), and a response that arrives before the deadline
with a non-error body completes on the success path with no timeout
failure. -/
theorem call_timeout_and_timer (timeout : Nat) (fr : FetchOutcome) :
    ((callExecutor timeout .aborted).outcome =
      .failure (.networkError ("Request timeout after " ++ toString timeout ++ "ms") none)) ∧
    (∃ pre post : String,
      "Request timeout after " ++ toString timeout ++ "ms" = pre ++ toString timeout ++ post) ∧
    ((callExecutor timeout fr).timerArmed = false) ∧
    (∀ status : Nat, ∀ stext : String, ∀ body : Json,
      isMoodleErrorResponse body = false →
      (callExecutor timeout (.resolved true status stext body)).outcome =
        .success body (extractWarnings body)) := by
  refine ⟨rfl, ⟨"Request timeout after ", "ms", rfl⟩, ?_, ?_⟩
  · cases fr with
    | resolved ok status stext body =>
      by_cases hok : ok
      · subst hok
        by_cases herr : isMoodleErrorResponse body = true
        · simp [callExecutor, herr]
        · simp [callExecutor, herr]
      · have : ok = false := by simpa using hok
        subst this
        simp [callExecutor]
    | aborted => rfl
    | failed name message =>
      by_cases h : (name == "AbortError") = true
      · simp [callExecutor, h]
      · have h' : (name == "AbortError") = false := by simpa using h
        simp [callExecutor, h']
  · intro status stext body h
    simp [callExecutor, h]

/-- Witness for C7 at a concrete timeout and fast successful response. -/
theorem call_timeout_and_timer_witness :
    (callExecutor 30000 .aborted).outcome =
      .failure (.networkError "Request timeout after 30000ms" none) ∧
    (callExecutor 30000 (.resolved true 200 "OK" (.obj [("id", .num 1)]))).outcome =
      .success (.obj [("id", .num 1)]) none ∧
    (callExecutor 30000 (.resolved true 200 "OK" (.obj [("id", .num 1)]))).timerArmed = false :=
  ⟨(call_timeout_and_timer 30000 .aborted).1,
   (call_timeout_and_timer 30000 .aborted).2.2.2 200 "OK" (.obj [("id", .num 1)]) rfl,
   (call_timeout_and_timer 30000 (.resolved true 200 "OK" (.obj [("id", .num 1)]))).2.2.1⟩

/-- C2 counterexample: two invocations of the generator on an identical
schema document but at different clock readings produce different OpenAPI
documents — the generator embeds `new Date().toISOString()` in
`info.description`. -/
theorem generateOpenAPISpec_clock_counterexample :
    generateOpenAPISpec ⟨none, none, none⟩ "moodle" "2026-01-01T00:00:00.000Z" ≠
      generateOpenAPISpec ⟨none, none, none⟩ "moodle" "2026-01-02T00:00:00.000Z" := by
  intro h
  exact absurd (congrArg infoDescriptionOf h) (by decide)

/-- C2 amended: the transformer is deterministic given identical input and
an identical clock reading; apart from the generation timestamp embedded
in `info.description`, the output is a function of the schema document
alone — masking that one field makes two invocations at any two clock
readings coincide exactly. -/
theorem generateOpenAPISpec_deterministic_up_to_clock (schema : MSchemaDoc)
    (nm now1 now2 : String) :
    stripGeneratedAt (generateOpenAPISpec schema nm now1) =
      stripGeneratedAt (generateOpenAPISpec schema nm now2) := rfl

/-- C8: an object schema with one required scalar property and one
optional array-of-objects property transforms to an OpenAPI schema whose
`required` list is exactly the required property's name, omitting the
optional one. -/
theorem required_list_exact (p q pfx : String) (hpq : p ≠ q) :
    jsGetProp (moodleTypeToOpenAPI (some (.node (some "object") none none false false none none
        (some [(p, .node (some "integer") none none false true none none none),
               (q, .node (some "array") none none false false none
                 (some (.node (some "object") none none false false none none
                   (some [("y", .node (some "string") none none false false none none none)])))
                 none)]))) pfx)
      "required" = some (.arr [.str p]) ∧
    Json.str q ∉ [Json.str p] := by
  constructor
  · simp [moodleTypeToOpenAPI, buildProperties, MSchema.getRequiredFlag, descField,
          defaultField, nullableField, jsGetProp, getField, List.find?]
  · intro hmem
    simp at hmem
    exact hpq hmem.symm

/-- Witness for C8 at concrete property names. -/
theorem required_list_exact_witness :
    jsGetProp (moodleTypeToOpenAPI (some (.node (some "object") none none false false none none
        (some [("id", .node (some "integer") none none false true none none none),
               ("items", .node (some "array") none none false false none
                 (some (.node (some "object") none none false false none none
                   (some [("y", .node (some "string") none none false false none none none)])))
                 none)]))) "")
      "required" = some (.arr [.str "id"]) ∧
    Json.str "items" ∉ [Json.str "id"] :=
  required_list_exact "id" "items" "" (by decide)

/-- C9 counterexample: a `boolean` scalar marked nullable transforms to a
schema with no `nullable` field at all — the boolean case of the source
omits the nullable spread the other scalar cases have. -/
theorem boolean_nullable_counterexample :
    moodleTypeToOpenAPI (some (.node (some "boolean") none none true false none none none)) "" =
      .obj [("type", .str "boolean")] ∧
    jsGetProp (moodleTypeToOpenAPI
        (some (.node (some "boolean") none none true false none none none)) "") "nullable" =
      none := by
  constructor
  · simp [moodleTypeToOpenAPI, descField, defaultField]
  · simp [moodleTypeToOpenAPI, descField, defaultField, jsGetProp, getField, List.find?]

/-- C9 amended: for every scalar type tag, the OpenAPI type is taken 1:1
from the declared tag and a present `default` is copied; a present
description is copied when nonempty (the source tests JavaScript
truthiness); `nullable: true` is emitted whenever the scalar is marked
nullable for the `integer`, `number` and `string` tags, but never for
`boolean`, whose case omits the nullable spread. -/
theorem scalar_field_mapping (tag pfx : String) (d : Option String) (dflt : Option Json)
    (nb rf : Bool) (rl : Option (List String)) (it : Option MSchema)
    (pr : Option (List (String × MSchema)))
    (htag : tag = "integer" ∨ tag = "number" ∨ tag = "boolean" ∨ tag = "string") :
    jsGetProp (moodleTypeToOpenAPI (some (.node (some tag) d dflt nb rf rl it pr)) pfx)
        "type" = some (.str tag) ∧
    jsGetProp (moodleTypeToOpenAPI (some (.node (some tag) d dflt nb rf rl it pr)) pfx)
        "description" =
      (match d with
       | some s => if s = "" then none else some (.str s)
       | none => none) ∧
    jsGetProp (moodleTypeToOpenAPI (some (.node (some tag) d dflt nb rf rl it pr)) pfx)
        "default" = dflt ∧
    jsGetProp (moodleTypeToOpenAPI (some (.node (some tag) d dflt nb rf rl it pr)) pfx)
        "nullable" =
      (if nb = true ∧ tag ≠ "boolean" then some (.bool true) else none) := by
  rcases htag with h | h | h | h <;> subst h <;>
    refine ⟨?_, ?_, ?_, ?_⟩ <;>
    rcases d with _ | s <;>
    rcases dflt with _ | dv <;>
    cases nb <;>
    simp [moodleTypeToOpenAPI, descField, defaultField, nullableField, jsGetProp,
          getField, List.find?] <;>
    (try by_cases hs : s = "") <;>
    simp [hs, getField, List.find?]

/-- Witness for the amended C9 at a concrete nullable string scalar. -/
theorem scalar_field_mapping_witness :
    jsGetProp (moodleTypeToOpenAPI
        (some (.node (some "string") (some "desc") (some (.num 0)) true false none none none)) "")
      "nullable" = some (.bool true) :=
  (scalar_field_mapping "string" "" (some "desc") (some (.num 0)) true false none none none
    (by decide)).2.2.2

/-- C10 counterexample: the string made of `a`, a newline and `b` meets
none of the quoting triggers the claim lists (it is nonempty, contains no
colon or hash, has no leading or trailing whitespace, starts with no
digit, and is no reserved word), yet the emitter does not render it bare —
the code also quotes on a contained newline. -/
theorem yaml_quoting_counterexample :
    specQuoteTrigger "a\nb" = false ∧ formatYamlValue (.str "a\nb") ≠ "a\nb" :=
  ⟨rfl, by decide⟩

/-- C10 amended: the emitter wraps a string in double quotes (escaping
embedded quotes and newlines) exactly when it is empty, contains a colon,
hash or newline, starts or ends with a space character, starts with a
digit, or is case-insensitively a reserved word, and renders every other
string bare; and the emitter applied to `{a:"true", b:1, c:[1,2]}` quotes
`"true"`, renders `b: 1`, and renders `c:` followed by `- 1` and `- 2`
lines. -/
theorem yaml_quoting_amended (s : String) :
    (formatYamlValue (.str s) =
      if specAmendedQuoteTrigger s then "\"" ++ escapeYamlString s ++ "\"" else s) ∧
    jsonToYaml (.obj [("a", .str "true"), ("b", .num 1), ("c", .arr [.num 1, .num 2])]) 0 =
      "a: \"true\"\nb: 1\nc:\n  - 1\n  - 2\n" := by
  constructor
  · show (if needsQuoting s then "\"" ++ escapeYamlString s ++ "\"" else s) = _
    have h : needsQuoting s = specAmendedQuoteTrigger s := rfl
    rw [h]
  · rfl

end MoodleTs
